import Mathlib

/-!
Verification of the retry-with-backoff middleware of the `requester`
HTTP client library (file `retry.go`).

The Go code is shallowly embedded as follows:

* `time.Duration` (an `int64` of nanoseconds) is modelled as `ℤ`.
* `float64` arithmetic inside `ExponentialBackoff.Backoff` is modelled as
  exact rational (`ℚ`) arithmetic; the final `time.Duration(backoff)`
  conversion, which truncates toward zero, is modelled by `truncQ`.
* The single draw of `rand.Float64()` (a value in `[0,1)`) is passed in
  explicitly as a parameter `u : ℚ`.
* Go errors are modelled by `GoError`, a record of the identity facts the
  code inspects through `errors.Is` / `errors.As` (EOF, ECONNRESET,
  ECONNABORTED, EPIPE, net.Error-with-Timeout), plus a numeric tag so
  that distinct errors can be distinguished.
* `io.ReadCloser` bodies are modelled by `Body`: nil, `http.NoBody`, a
  stream yielding some bytes and then either clean EOF or a read error
  (with a close error), or an in-memory buffer (`bytes.Buffer` wrapped in
  `io.NopCloser` / the `errCloser` of retry.go).
* The underlying `Doer`, the request's `GetBody` regenerator, and the
  context's cancellation signal are modelled by oracles in `Env`,
  indexed by call number: `doer i` is the outcome of the i-th call of
  `next.Do` (0-based), `getBody i` the outcome of the i-th `GetBody`
  call, and `ctxDone a` says whether `req.Context().Done()` fires before
  the backoff timer in the wait that follows attempt `a`.
* The retry loop of `Retry` is embedded as a fuel-based recursion
  (`retryStep` is one iteration of the `for` loop, `retryLoop` the
  loop); the fuel equals `MaxAttempts`, which the loop can never exceed
  because of its `attempt >= c.MaxAttempts` break. Each iteration is
  recorded as an `Iter`, so that theorems can speak about the sequence
  of attempts (doer calls, predicate evaluations, drains, backoff
  waits, cancellation). A `none` overall result models a Go runtime
  panic (nil-response dereference, unreachable for contract-abiding
  doers).
-/

namespace Requester

/-- A Go `error` value, characterised by the identity checks that
`DefaultShouldRetry` performs via `errors.Is` / `errors.As`, plus a tag
to tell unrelated errors apart.  `merry.Prepend` only changes an error's
message and keeps its identity, so wrapping is not modelled. -/
structure GoError where
  isEOF : Bool := false
  isConnReset : Bool := false
  isConnAborted : Bool := false
  isBrokenPipe : Bool := false
  isNetErr : Bool := false
  isTimeout : Bool := false
  tag : ℕ := 0
deriving DecidableEq

/-- An `io.ReadCloser` as used for request and response bodies:
`nilB` is a nil interface value, `noBody` is the `http.NoBody` sentinel,
`stream data readErr closeErr` yields `data` and then either clean EOF
(`readErr = none`) or a read error, with `closeErr` the result of
`Close`; `buffered data closeErr` is an in-memory buffer of `data`
wrapped in `io.NopCloser` (`closeErr = none`) or in the `errCloser` of
retry.go (`closeErr = some e`). -/
inductive Body where
  | nilB : Body
  | noBody : Body
  | stream (data : List ℕ) (readErr : Option GoError) (closeErr : Option GoError) : Body
  | buffered (data : List ℕ) (closeErr : Option GoError) : Body
deriving DecidableEq

/-- The bytes an in-memory body holds (empty for nil / NoBody / a live
stream whose bytes have not been buffered). -/
def Body.storedBytes : Body → List ℕ
  | .buffered d _ => d
  | _ => []

/-- An `*http.Response`: the status code and body are what retry.go
inspects; `tag` distinguishes otherwise-identical responses. -/
structure Response where
  statusCode : ℤ
  body : Body
  tag : ℕ := 0
deriving DecidableEq

/-- An `*http.Request`, reduced to the fields retry.go reads: the body,
whether `GetBody` is non-nil, and a tag standing for all the other
(shallow-copied) fields. -/
structure Request where
  body : Body
  hasGetBody : Bool
  tag : ℕ := 0
deriving DecidableEq

/-- `req.Body != nil && req.Body != http.NoBody`, the "has a present,
non-empty body" test of retry.go. -/
def bodyPresent : Body → Bool
  | .nilB => false
  | .noBody => false
  | _ => true

/-- `DefaultShouldRetry` of retry.go.  Returns `none` when the Go code
would dereference a nil response (`err == nil` and `resp == nil`), which
cannot happen for doers respecting the `Doer` contract. -/
def DefaultShouldRetry (_attempt : ℕ) (_req : Request)
    (resp : Option Response) (err : Option GoError) : Option Bool :=
  match err with
  | none =>
    match resp with
    | none => none
    | some r =>
      some ((r.statusCode == 500) || decide (501 < r.statusCode) || (r.statusCode == 429))
  | some e =>
    if e.isEOF || e.isConnReset || e.isConnAborted || e.isBrokenPipe then some true
    else if e.isNetErr && e.isTimeout then some true
    else some false

/-- `ExponentialBackoff` of retry.go.  Durations are `ℤ` nanoseconds and
the `float64` fields are `ℚ`. -/
structure ExponentialBackoff where
  BaseDelay : ℤ
  Multiplier : ℚ
  Jitter : ℚ
  MaxDelay : ℤ
deriving DecidableEq

/-- Truncation of a rational toward zero, the behaviour of Go's
`time.Duration(f)` conversion from `float64`. -/
def truncQ (q : ℚ) : ℤ := if q < 0 then -(Rat.floor (-q)) else Rat.floor q

/-- The value of the local variable `backoff` in
`ExponentialBackoff.Backoff` just before the jitter block: base delay,
multiplied by `Multiplier^(attempt-1)` when `Multiplier > 0`, clamped to
`MaxDelay` when `MaxDelay > 0`, then floored at 0. -/
def ExponentialBackoff.preJitter (c : ExponentialBackoff) (attempt : ℤ) : ℚ :=
  max 0
    (if 0 < c.MaxDelay then
      min (if 0 < c.Multiplier then (c.BaseDelay : ℚ) * c.Multiplier ^ (attempt - 1)
           else (c.BaseDelay : ℚ))
          (c.MaxDelay : ℚ)
     else
      (if 0 < c.Multiplier then (c.BaseDelay : ℚ) * c.Multiplier ^ (attempt - 1)
       else (c.BaseDelay : ℚ)))

/-- The jitter block of `ExponentialBackoff.Backoff`: when `Jitter > 0`,
multiply by `1 + Jitter*(u*2 - 1)` where `u` is the `rand.Float64()`
draw, and if that pushed the value `delta` above `MaxDelay` (when
configured), redistribute it to `MaxDelay - delta`. -/
def ExponentialBackoff.applyJitter (c : ExponentialBackoff) (b : ℚ) (u : ℚ) : ℚ :=
  if 0 < c.Jitter then
    if 0 < c.MaxDelay then
      (if 0 < b * (1 + c.Jitter * (u * 2 - 1)) - (c.MaxDelay : ℚ) then
        (c.MaxDelay : ℚ) - (b * (1 + c.Jitter * (u * 2 - 1)) - (c.MaxDelay : ℚ))
       else b * (1 + c.Jitter * (u * 2 - 1)))
    else b * (1 + c.Jitter * (u * 2 - 1))
  else b

/-- The exact (real-valued) result of `ExponentialBackoff.Backoff`
before the conversion to `time.Duration`. -/
def ExponentialBackoff.backoffExact (c : ExponentialBackoff) (attempt : ℤ) (u : ℚ) : ℚ :=
  c.applyJitter (c.preJitter attempt) u

/-- `(*ExponentialBackoff).Backoff` of retry.go, with the
`rand.Float64()` draw `u` passed explicitly. -/
def ExponentialBackoff.Backoff (c : ExponentialBackoff) (attempt : ℤ) (u : ℚ) : ℤ :=
  truncQ (c.backoffExact attempt u)

/-- `bufRespBody` of retry.go: read all of `b` into memory and return a
ReadCloser replaying the same bytes.  A nil or `http.NoBody` body is
returned unchanged.  If reading fails, return `(nil, readErr)` — the
partially read buffer is discarded.  If reading succeeds but `Close`
fails, return the buffer behind an `errCloser` whose `Close` reports
that error.  Otherwise return the buffer behind `io.NopCloser`. -/
def bufRespBody : Body → Body × Option GoError
  | .nilB => (.nilB, none)
  | .noBody => (.noBody, none)
  | .stream d re ce =>
    match re with
    | some e => (.nilB, some e)
    | none =>
      match ce with
      | some e => (.buffered d (some e), none)
      | none => (.buffered d none, none)
  | .buffered d ce =>
    match ce with
    | some e => (.buffered d (some e), none)
    | none => (.buffered d none, none)

/-- `drain` of retry.go: for a non-nil body, copy up to 4096 bytes to
`ioutil.Discard` and then close it, ignoring all errors; a nil body is
left untouched.  Returns (bytes read, whether `Close` was called). -/
def drain : Body → ℕ × Bool
  | .nilB => (0, false)
  | .noBody => (0, true)
  | .stream d _ _ => (min d.length 4096, true)
  | .buffered d _ => (min d.length 4096, true)

/-- `resetRequest` of retry.go: shallow-copy the request and, when the
body is present and non-empty, replace it by a fresh body from
`GetBody` (whose outcome for this call is `gb`); `merry.Prepend` keeps
the error's identity, so a `GetBody` failure propagates unchanged.  The
returned Bool records whether `GetBody` was invoked. -/
def resetRequest (req : Request) (gb : Except GoError Body) :
    Except GoError (Request × Bool) :=
  if bodyPresent req.body then
    match gb with
    | .error e => .error e
    | .ok b => .ok ({ req with body := b }, true)
  else .ok (req, false)

/-- The `ReadResponse` step of the retry loop: when the attempt produced
no error and `ReadResponse` is configured, the whole body is buffered
via `bufRespBody` (`resp.Body, err = bufRespBody(resp.Body)`).  Returns
`none` when the Go code would dereference a nil response. -/
def readResponseStep (readResponse : Bool) (resp : Option Response)
    (err : Option GoError) : Option (Option Response × Option GoError) :=
  if err.isNone && readResponse then
    match resp with
    | none => none
    | some r => some (some { r with body := (bufRespBody r.body).1 }, (bufRespBody r.body).2)
  else some (resp, err)

/-- `RetryConfig` of retry.go.  `ShouldRetry` and `Backoff` are carried
as (total) functions; a nil `ShouldRetry`/`Backoff` field, which
`normalize` replaces by `DefaultShouldRetry`/`DefaultBackoff`, is
modelled by instantiating these fields with the default policies.  The
`Backoff` function abstracts the `Backoffer` interface: attempt number
to wait duration. -/
structure RetryConfig where
  MaxAttempts : ℤ
  ShouldRetry : ℕ → Request → Option Response → Option GoError → Bool
  Backoff : ℕ → ℤ
  ReadResponse : Bool

/-- The `MaxAttempts` part of `(*RetryConfig).normalize`: fewer than 1
means the default of 3. -/
def normalizeMaxAttempts (m : ℤ) : ℤ := if m < 1 then 3 else m

/-- The environment a single `Retry` invocation runs against: the
underlying doer's outcome for each call (0-based), the outcome of each
`GetBody` call, whether the context's Done channel wins the race
against the backoff timer in the wait following attempt `a`, and the
context's error. -/
structure Env where
  doer : ℕ → Option Response × Option GoError
  getBody : ℕ → Except GoError Body
  ctxDone : ℕ → Bool
  ctxErr : GoError

/-- The record of one iteration of the retry loop: the attempt number
(1-based), the response/error the iteration ended up with (after the
`ReadResponse` step), whether and how the predicate was evaluated,
whether the response body was drained (bytes read, closed), whether
`GetBody` was invoked, the backoff wait taken (none if the loop ended
in this iteration), and whether cancellation fired during the wait. -/
structure Iter where
  attempt : ℕ
  resp : Option Response
  err : Option GoError
  predEval : Option Bool
  drained : Option (ℕ × Bool)
  getBodyCalled : Bool
  waited : Option ℤ
  canceled : Bool
deriving DecidableEq

/-- The outcome of one iteration of the `for` loop in `Retry`: either
the loop terminates (`done`), with `res = none` modelling a Go panic,
or it proceeds to the next attempt with an updated request and
`GetBody` call counter. -/
inductive StepRes where
  | done (res : Option (Option Response × Option GoError)) (it : Iter) : StepRes
  | next (req : Request) (gb : ℕ) (it : Iter) : StepRes

/-- One iteration of the retry loop of `Retry`, mirroring the loop body
line by line: call the doer (`attempts` doer calls happened before, so
this is call number `attempts`), increment the attempt counter, apply
the `ReadResponse` step, break if attempts are exhausted (the predicate
is then not consulted) or the predicate vetoes; otherwise drain the
response body if the response is non-nil, reset the request (a failure
ends the loop with that error), and race the backoff timer against
cancellation. -/
def retryStep (c : RetryConfig) (env : Env) (maxA : ℕ) (req : Request)
    (attempts gb : ℕ) : StepRes :=
  match readResponseStep c.ReadResponse (env.doer attempts).1 (env.doer attempts).2 with
  | none =>
    .done none
      { attempt := attempts + 1, resp := (env.doer attempts).1, err := (env.doer attempts).2,
        predEval := none, drained := none, getBodyCalled := false,
        waited := none, canceled := false }
  | some (resp, err) =>
    if maxA ≤ attempts + 1 then
      .done (some (resp, err))
        { attempt := attempts + 1, resp := resp, err := err, predEval := none,
          drained := none, getBodyCalled := false, waited := none, canceled := false }
    else if c.ShouldRetry (attempts + 1) req resp err = false then
      .done (some (resp, err))
        { attempt := attempts + 1, resp := resp, err := err, predEval := some false,
          drained := none, getBodyCalled := false, waited := none, canceled := false }
    else
      match resetRequest req (env.getBody gb) with
      | .error e =>
        .done (some (resp, some e))
          { attempt := attempts + 1, resp := resp, err := err, predEval := some true,
            drained := resp.map (fun r => drain r.body), getBodyCalled := true,
            waited := none, canceled := false }
      | .ok rq =>
        if env.ctxDone (attempts + 1) then
          .done (some (none, some env.ctxErr))
            { attempt := attempts + 1, resp := resp, err := err, predEval := some true,
              drained := resp.map (fun r => drain r.body), getBodyCalled := rq.2,
              waited := none, canceled := true }
        else
          .next rq.1 (gb + (if rq.2 then 1 else 0))
            { attempt := attempts + 1, resp := resp, err := err, predEval := some true,
              drained := resp.map (fun r => drain r.body), getBodyCalled := rq.2,
              waited := some (c.Backoff (attempts + 1)), canceled := false }

/-- The `for` loop of `Retry`, driven by fuel.  The fuel is set to the
(normalized) `MaxAttempts`; the loop's own `attempt >= c.MaxAttempts`
break fires before the fuel can run out, so the fuel-exhaustion value
is never reached from `Retry`. -/
def retryLoop (c : RetryConfig) (env : Env) (maxA : ℕ) :
    ℕ → Request → ℕ → ℕ → Option (Option Response × Option GoError) × List Iter
  | 0, _, _, _ => (none, [])
  | fuel + 1, req, attempts, gb =>
    match retryStep c env maxA req attempts gb with
    | .done res it => (res, [it])
    | .next req' gb' it =>
      (fun rest => (rest.1, it :: rest.2)) (retryLoop c env maxA fuel req' (attempts + 1) gb')

/-- The overall outcome of one `Retry`-wrapped call: whether the
single-send bypass was taken, the returned `(response, error)` pair
(`none` modelling a Go panic), and the per-iteration records of the
retry loop (empty when bypassed). -/
structure RunOut where
  bypassed : Bool
  result : Option (Option Response × Option GoError)
  iters : List Iter
deriving DecidableEq

/-- How many times the underlying doer was invoked: once for the
bypass, once per loop iteration. -/
def RunOut.doerCalls (o : RunOut) : ℕ :=
  (if o.bypassed then 1 else 0) + o.iters.length

/-- How many backoff waits completed. -/
def RunOut.waits (o : RunOut) : ℕ :=
  o.iters.countP (fun it => it.waited.isSome)

/-- The `DoerFunc` produced by the `Retry` middleware of retry.go,
applied to a request: normalize `MaxAttempts`, bypass retry entirely
when the request has a present, non-empty body but no `GetBody`
regenerator, and otherwise run the retry loop. -/
def Retry (c : RetryConfig) (env : Env) (req : Request) : RunOut :=
  if bodyPresent req.body && !req.hasGetBody then
    { bypassed := true, result := some (env.doer 0), iters := [] }
  else
    { bypassed := false,
      result := (retryLoop c env (normalizeMaxAttempts c.MaxAttempts).toNat
                  (normalizeMaxAttempts c.MaxAttempts).toNat req 0 0).1,
      iters := (retryLoop c env (normalizeMaxAttempts c.MaxAttempts).toNat
                  (normalizeMaxAttempts c.MaxAttempts).toNat req 0 0).2 }

/-- The iteration record of a loop-step outcome. -/
def StepRes.iter : StepRes → Iter
  | .done _ it => it
  | .next _ _ it => it

theorem ratFloor_eq_intFloor (q : ℚ) : Rat.floor q = ⌊q⌋ := by
  rw [Rat.floor_def', Rat.floor_def]

theorem truncQ_eq (q : ℚ) : truncQ q = if q < 0 then -⌊-q⌋ else ⌊q⌋ := by
  unfold truncQ
  rw [ratFloor_eq_intFloor, ratFloor_eq_intFloor]

theorem truncQ_nonneg {q : ℚ} (h : 0 ≤ q) : 0 ≤ truncQ q := by
  rw [truncQ_eq, if_neg (not_lt.mpr h)]
  exact Int.le_floor.mpr (by exact_mod_cast h)

theorem truncQ_le_intCast {q : ℚ} {m : ℤ} (h : q ≤ (m : ℚ)) (hm : 0 ≤ m) :
    truncQ q ≤ m := by
  rw [truncQ_eq]
  by_cases hq : q < 0
  · rw [if_pos hq]
    have h1 : (0 : ℤ) ≤ ⌊-q⌋ := Int.le_floor.mpr (by push_cast; linarith)
    omega
  · rw [if_neg hq]
    calc ⌊q⌋ ≤ ⌊(m : ℚ)⌋ := Int.floor_le_floor h
    _ = m := Int.floor_intCast m

theorem truncQ_intCast (m : ℤ) : truncQ ((m : ℚ)) = m := by
  rw [truncQ_eq]
  by_cases hm : (m : ℚ) < 0
  · rw [if_pos hm]
    rw [show -((m : ℚ)) = (((-m : ℤ)) : ℚ) by push_cast; ring, Int.floor_intCast]
    ring
  · rw [if_neg hm, Int.floor_intCast]

theorem preJitter_nonneg (c : ExponentialBackoff) (n : ℤ) : 0 ≤ c.preJitter n :=
  le_max_left 0 _

theorem preJitter_le_max (c : ExponentialBackoff) (n : ℤ) (h : 0 < c.MaxDelay) :
    c.preJitter n ≤ (c.MaxDelay : ℚ) := by
  unfold ExponentialBackoff.preJitter
  rw [if_pos h]
  exact max_le (by exact_mod_cast h.le) (min_le_right _ _)

theorem preJitter_const (c : ExponentialBackoff) (hm : c.Multiplier ≤ 0) (n m : ℤ) :
    c.preJitter n = c.preJitter m := by
  unfold ExponentialBackoff.preJitter
  simp only [if_neg (not_lt.mpr hm)]

theorem preJitter_base (c : ExponentialBackoff) (n : ℤ) (hm : c.Multiplier ≤ 0)
    (hb : 0 ≤ c.BaseDelay) (hmax : c.MaxDelay ≤ 0 ∨ c.BaseDelay ≤ c.MaxDelay) :
    c.preJitter n = (c.BaseDelay : ℚ) := by
  unfold ExponentialBackoff.preJitter
  simp only [if_neg (not_lt.mpr hm)]
  by_cases hM : 0 < c.MaxDelay
  · rw [if_pos hM]
    rcases hmax with h | h
    · omega
    · rw [min_eq_left (by exact_mod_cast h)]
      exact max_eq_right (by exact_mod_cast hb)
  · rw [if_neg hM]
    exact max_eq_right (by exact_mod_cast hb)

theorem applyJitter_le_max (c : ExponentialBackoff) {b : ℚ} (u : ℚ)
    (hM : 0 < c.MaxDelay) (hb : b ≤ (c.MaxDelay : ℚ)) :
    c.applyJitter b u ≤ (c.MaxDelay : ℚ) := by
  unfold ExponentialBackoff.applyJitter
  by_cases hJ : 0 < c.Jitter
  · rw [if_pos hJ, if_pos hM]
    by_cases hd : 0 < b * (1 + c.Jitter * (u * 2 - 1)) - (c.MaxDelay : ℚ)
    · rw [if_pos hd]; linarith
    · rw [if_neg hd]; linarith
  · rw [if_neg hJ]; exact hb

theorem applyJitter_nonneg (c : ExponentialBackoff) {b u : ℚ}
    (hJ : c.Jitter ≤ 1) (hu0 : 0 ≤ u) (hu1 : u ≤ 1) (hb0 : 0 ≤ b)
    (hbmax : 0 < c.MaxDelay → b ≤ (c.MaxDelay : ℚ)) :
    0 ≤ c.applyJitter b u := by
  unfold ExponentialBackoff.applyJitter
  by_cases hJp : 0 < c.Jitter
  · have hf0 : 0 ≤ 1 + c.Jitter * (u * 2 - 1) := by nlinarith
    have hf2 : 1 + c.Jitter * (u * 2 - 1) ≤ 2 := by nlinarith
    have hj0 : 0 ≤ b * (1 + c.Jitter * (u * 2 - 1)) := mul_nonneg hb0 hf0
    rw [if_pos hJp]
    by_cases hM : 0 < c.MaxDelay
    · rw [if_pos hM]
      have hbM : b ≤ (c.MaxDelay : ℚ) := hbmax hM
      by_cases hd : 0 < b * (1 + c.Jitter * (u * 2 - 1)) - (c.MaxDelay : ℚ)
      · rw [if_pos hd]
        nlinarith
      · rw [if_neg hd]; exact hj0
    · rw [if_neg hM]; exact hj0
  · rw [if_neg hJp]; exact hb0

/-- Claim C3: for every ExponentialBackoff configuration with
`MaxDelay > 0`, every attempt number `n ≥ 1`, and every jitter draw
`u ∈ [0,1]`, `Backoff(n) ≤ MaxDelay`; moreover when jitter pushes the
delay `delta` above `MaxDelay`, the result is redistributed downward to
`MaxDelay - delta`. -/
theorem backoff_ceiling (c : ExponentialBackoff) (n : ℤ) (u : ℚ)
    (hM : 0 < c.MaxDelay) (hn : 1 ≤ n) (hu0 : 0 ≤ u) (hu1 : u ≤ 1) :
    c.Backoff n u ≤ c.MaxDelay ∧
      (0 < c.Jitter →
        (c.MaxDelay : ℚ) < c.preJitter n * (1 + c.Jitter * (u * 2 - 1)) →
        c.backoffExact n u =
          (c.MaxDelay : ℚ) -
            (c.preJitter n * (1 + c.Jitter * (u * 2 - 1)) - (c.MaxDelay : ℚ))) := by
  constructor
  · exact truncQ_le_intCast
      (applyJitter_le_max c u hM (preJitter_le_max c n hM)) hM.le
  · intro hJ hover
    unfold ExponentialBackoff.backoffExact ExponentialBackoff.applyJitter
    rw [if_pos hJ, if_pos hM, if_pos (by linarith)]

/-- Witness for claim C3 at a concrete configuration. -/
theorem backoff_ceiling_witness :
    (0 : ℤ) < 250 ∧ (1 : ℤ) ≤ 3 ∧ (0 : ℚ) ≤ 1 ∧ (1 : ℚ) ≤ 1 ∧
      ExponentialBackoff.Backoff ⟨100, 2, 1, 250⟩ 3 1 ≤ 250 :=
  ⟨by decide, by decide, by decide, by decide,
    (backoff_ceiling ⟨100, 2, 1, 250⟩ 3 1 (by decide) (by decide) (by decide)
      (by decide)).1⟩

/-- Counterexample for claim C4: with `BaseDelay = 1`, `Multiplier = 0`,
`Jitter = 2`, `MaxDelay = 0` and jitter draw `u = 0` (a legal value of
`rand.Float64()`), `Backoff(1)` is `-1`, a negative duration: the floor
at 0 happens before the jitter is applied, not after it. -/
theorem backoff_nonneg_counterexample :
    ExponentialBackoff.Backoff ⟨1, 0, 2, 0⟩ 1 0 = -1 ∧
      ExponentialBackoff.Backoff ⟨1, 0, 2, 0⟩ 1 0 < 0 := by
  constructor
  · norm_num [ExponentialBackoff.Backoff, ExponentialBackoff.backoffExact,
      ExponentialBackoff.applyJitter, ExponentialBackoff.preJitter, truncQ,
      Rat.floor_def']
  · norm_num [ExponentialBackoff.Backoff, ExponentialBackoff.backoffExact,
      ExponentialBackoff.applyJitter, ExponentialBackoff.preJitter, truncQ,
      Rat.floor_def']

/-- Claim C4 (amended): for every ExponentialBackoff configuration whose
`Jitter` is at most 1 (the code floors at 0 before applying jitter, so a
jitter fraction above 1 can still drive the result negative), every
attempt number, and every jitter draw `u ∈ [0,1]`, `Backoff(n) ≥ 0`. -/
theorem backoff_nonneg (c : ExponentialBackoff) (n : ℤ) (u : ℚ)
    (hJ : c.Jitter ≤ 1) (hu0 : 0 ≤ u) (hu1 : u ≤ 1) :
    0 ≤ c.Backoff n u :=
  truncQ_nonneg
    (applyJitter_nonneg c hJ hu0 hu1 (preJitter_nonneg c n)
      (fun hM => preJitter_le_max c n hM))

/-- Witness for the amended claim C4 at a concrete configuration. -/
theorem backoff_nonneg_witness :
    ((⟨100, 2, 1, 250⟩ : ExponentialBackoff)).Jitter ≤ 1 ∧ (0 : ℚ) ≤ 1 ∧ (1 : ℚ) ≤ 1 ∧
      0 ≤ ExponentialBackoff.Backoff ⟨100, 2, 1, 250⟩ 3 1 :=
  ⟨by decide, by decide, by decide,
    backoff_nonneg ⟨100, 2, 1, 250⟩ 3 1 (by decide) (by decide) (by decide)⟩

/-- Counterexample for claim C8: the configuration with `BaseDelay = 10`,
`Multiplier = 0`, `Jitter = 0`, `MaxDelay = 5` is in constant mode with
no jitter, yet `Backoff(2) = 5 ≠ 10 = BaseDelay`, because the `MaxDelay`
clamp applies before the jitter stage. -/
theorem constant_mode_counterexample :
    ((⟨10, 0, 0, 5⟩ : ExponentialBackoff)).Multiplier ≤ 0 ∧
      ((⟨10, 0, 0, 5⟩ : ExponentialBackoff)).Jitter = 0 ∧
      ExponentialBackoff.Backoff ⟨10, 0, 0, 5⟩ 2 0 = 5 ∧
      ExponentialBackoff.Backoff ⟨10, 0, 0, 5⟩ 2 0 ≠
        ((⟨10, 0, 0, 5⟩ : ExponentialBackoff)).BaseDelay := by
  refine ⟨by decide, by decide, ?_, ?_⟩
  · norm_num [ExponentialBackoff.Backoff, ExponentialBackoff.backoffExact,
      ExponentialBackoff.applyJitter, ExponentialBackoff.preJitter, truncQ,
      Rat.floor_def']
  · norm_num [ExponentialBackoff.Backoff, ExponentialBackoff.backoffExact,
      ExponentialBackoff.applyJitter, ExponentialBackoff.preJitter, truncQ,
      Rat.floor_def']

/-- Claim C8 (amended): with `Multiplier ≤ 0` the delay is constant
across attempt numbers; when additionally `BaseDelay` is non-negative
and is not clamped by a configured `MaxDelay` (which the counterexample
shows can change the value), the delay equals `BaseDelay` exactly when
`Jitter = 0`, and the exact (pre-truncation) delay stays within the
jitter fraction of `BaseDelay` for any draw `u ∈ [0,1]`. -/
theorem constant_mode (c : ExponentialBackoff) (hm : c.Multiplier ≤ 0) :
    (∀ n m u, c.Backoff n u = c.Backoff m u) ∧
      (0 ≤ c.BaseDelay → (c.MaxDelay ≤ 0 ∨ c.BaseDelay ≤ c.MaxDelay) →
        ((c.Jitter = 0 → ∀ n u, c.Backoff n u = c.BaseDelay) ∧
          ∀ n u, 0 ≤ u → u ≤ 1 →
            |c.backoffExact n u - (c.BaseDelay : ℚ)| ≤
              |c.Jitter| * (c.BaseDelay : ℚ))) := by
  constructor
  · intro n m u
    unfold ExponentialBackoff.Backoff ExponentialBackoff.backoffExact
    rw [preJitter_const c hm n m]
  · intro hb hmax
    constructor
    · intro hJ n u
      unfold ExponentialBackoff.Backoff ExponentialBackoff.backoffExact
        ExponentialBackoff.applyJitter
      rw [preJitter_base c n hm hb hmax, if_neg (by rw [hJ]; exact lt_irrefl 0),
        truncQ_intCast]
    · intro n u hu0 hu1
      unfold ExponentialBackoff.backoffExact ExponentialBackoff.applyJitter
      rw [preJitter_base c n hm hb hmax]
      have hbq : (0 : ℚ) ≤ (c.BaseDelay : ℚ) := by exact_mod_cast hb
      by_cases hJp : 0 < c.Jitter
      · rw [if_pos hJp, abs_of_pos hJp]
        have hfl : 1 - c.Jitter ≤ 1 + c.Jitter * (u * 2 - 1) := by nlinarith
        have hfu : 1 + c.Jitter * (u * 2 - 1) ≤ 1 + c.Jitter := by nlinarith
        have hjl : (c.BaseDelay : ℚ) * (1 - c.Jitter) ≤
            (c.BaseDelay : ℚ) * (1 + c.Jitter * (u * 2 - 1)) :=
          mul_le_mul_of_nonneg_left hfl hbq
        have hju : (c.BaseDelay : ℚ) * (1 + c.Jitter * (u * 2 - 1)) ≤
            (c.BaseDelay : ℚ) * (1 + c.Jitter) :=
          mul_le_mul_of_nonneg_left hfu hbq
        by_cases hM : 0 < c.MaxDelay
        · rw [if_pos hM]
          have hBM : (c.BaseDelay : ℚ) ≤ (c.MaxDelay : ℚ) := by
            rcases hmax with h | h
            · omega
            · exact_mod_cast h
          by_cases hd : 0 < (c.BaseDelay : ℚ) * (1 + c.Jitter * (u * 2 - 1)) -
              (c.MaxDelay : ℚ)
          · rw [if_pos hd, abs_le]
            constructor <;> nlinarith
          · rw [if_neg hd, abs_le]
            constructor <;> nlinarith
        · rw [if_neg hM, abs_le]
          constructor <;> nlinarith
      · rw [if_neg hJp, abs_le]
        have : (0 : ℚ) ≤ |c.Jitter| * (c.BaseDelay : ℚ) :=
          mul_nonneg (abs_nonneg _) hbq
        constructor <;> linarith

/-- Witness for the amended claim C8 at a concrete configuration. -/
theorem constant_mode_witness :
    ((⟨7, 0, 1, 0⟩ : ExponentialBackoff)).Multiplier ≤ 0 ∧
      ExponentialBackoff.Backoff ⟨7, 0, 1, 0⟩ 2 1 = ExponentialBackoff.Backoff ⟨7, 0, 1, 0⟩ 5 1 :=
  ⟨by decide, (constant_mode ⟨7, 0, 1, 0⟩ (by decide)).1 2 5 1⟩

/-- Claim C5: `DefaultShouldRetry` retries, in the no-error case, exactly
on status 500, any status above 501, or 429 (so not on 501 nor on any
other status, success codes included), and, in the error case, exactly
on EOF, connection-reset, connection-aborted, broken-pipe, or a
`net.Error` reporting a timeout. -/
theorem default_should_retry_spec (a : ℕ) (req : Request) (r : Response)
    (o : Option Response) (e : GoError) :
    (DefaultShouldRetry a req (some r) none = some true ↔
        (r.statusCode = 500 ∨ 501 < r.statusCode ∨ r.statusCode = 429)) ∧
      (DefaultShouldRetry a req (some r) none = some false ↔
        ¬(r.statusCode = 500 ∨ 501 < r.statusCode ∨ r.statusCode = 429)) ∧
      (DefaultShouldRetry a req o (some e) = some true ↔
        (e.isEOF = true ∨ e.isConnReset = true ∨ e.isConnAborted = true ∨
          e.isBrokenPipe = true ∨ (e.isNetErr = true ∧ e.isTimeout = true))) ∧
      (DefaultShouldRetry a req o (some e) = some false ↔
        ¬(e.isEOF = true ∨ e.isConnReset = true ∨ e.isConnAborted = true ∨
          e.isBrokenPipe = true ∨ (e.isNetErr = true ∧ e.isTimeout = true))) := by
  refine ⟨?_, ?_, ?_, ?_⟩
  · simp only [DefaultShouldRetry, Option.some.injEq, Bool.or_eq_true, beq_iff_eq,
      decide_eq_true_eq]
    tauto
  · simp only [DefaultShouldRetry, Option.some.injEq, Bool.or_eq_false_iff,
      beq_eq_false_iff_ne, decide_eq_false_iff_not]
    constructor
    · rintro ⟨⟨h1, h2⟩, h3⟩ (h | h | h) <;> simp_all
    · intro h
      push_neg at h
      exact ⟨⟨h.1, not_lt.mpr h.2.1⟩, h.2.2⟩
  · cases he : e.isEOF <;> cases hr : e.isConnReset <;> cases ha : e.isConnAborted <;>
      cases hp : e.isBrokenPipe <;> cases hn : e.isNetErr <;> cases ht : e.isTimeout <;>
      simp [DefaultShouldRetry, he, hr, ha, hp, hn, ht]
  · cases he : e.isEOF <;> cases hr : e.isConnReset <;> cases ha : e.isConnAborted <;>
      cases hp : e.isBrokenPipe <;> cases hn : e.isNetErr <;> cases ht : e.isTimeout <;>
      simp [DefaultShouldRetry, he, hr, ha, hp, hn, ht]

theorem readResponseStep_isSome (rr : Bool) (resp : Option Response)
    (err : Option GoError) (h : resp = none → err ≠ none) :
    (readResponseStep rr resp err).isSome = true := by
  unfold readResponseStep
  cases resp with
  | none =>
    cases err with
    | none => exact absurd rfl (h rfl)
    | some e => simp
  | some r => cases err <;> cases rr <;> simp

theorem resetRequest_ok (req : Request) (b : Body) :
    ∃ rq, resetRequest req (.ok b) = .ok rq := by
  unfold resetRequest
  split
  · exact ⟨_, rfl⟩
  · exact ⟨_, rfl⟩

theorem resetRequest_absent (req : Request) (gb : Except GoError Body)
    (hb : bodyPresent req.body = false) :
    resetRequest req gb = .ok (req, false) := by
  unfold resetRequest
  rw [if_neg (by simp [hb])]

theorem retryStep_next_shape {c : RetryConfig} {env : Env} {maxA : ℕ}
    {req req' : Request} {attempts gb gb' : ℕ} {it : Iter}
    (h : retryStep c env maxA req attempts gb = .next req' gb' it) :
    it.attempt = attempts + 1 ∧
      it.drained = it.resp.map (fun r => drain r.body) ∧
      it.waited = some (c.Backoff (attempts + 1)) ∧
      it.canceled = false := by
  unfold retryStep at h
  split at h
  · nomatch h
  · split at h
    · nomatch h
    · split at h
      · nomatch h
      · split at h
        · nomatch h
        · split at h
          · nomatch h
          · cases h
            exact ⟨rfl, rfl, rfl, rfl⟩

theorem retryStep_done_canceled {c : RetryConfig} {env : Env} {maxA : ℕ}
    {req : Request} {attempts gb : ℕ} {res : Option (Option Response × Option GoError)}
    {it : Iter} (h : retryStep c env maxA req attempts gb = .done res it)
    (hc : it.canceled = true) :
    res = some (none, some env.ctxErr) ∧ it.waited = none := by
  unfold retryStep at h
  split at h
  · cases h; nomatch hc
  · split at h
    · cases h; nomatch hc
    · split at h
      · cases h; nomatch hc
      · split at h
        · cases h; nomatch hc
        · split at h
          · cases h; exact ⟨rfl, rfl⟩
          · nomatch h

theorem retryStep_always_next {c : RetryConfig} {env : Env} {maxA : ℕ}
    (hpred : ∀ a r o e, c.ShouldRetry a r o e = true)
    (hgb : ∀ i, ∃ b, env.getBody i = .ok b)
    (hctx : ∀ n, env.ctxDone n = false)
    (hwf : ∀ i, (env.doer i).1 = none → (env.doer i).2 ≠ none)
    (req : Request) (attempts gb : ℕ) (hlt : attempts + 1 < maxA) :
    ∃ req' gb' it, retryStep c env maxA req attempts gb = .next req' gb' it := by
  unfold retryStep
  obtain ⟨p, hp⟩ := Option.isSome_iff_exists.mp
    (readResponseStep_isSome c.ReadResponse (env.doer attempts).1 (env.doer attempts).2
      (hwf attempts))
  rw [hp]
  obtain ⟨resp, err⟩ := p
  dsimp only
  rw [if_neg (by omega), if_neg (by simp [hpred])]
  obtain ⟨b, hb⟩ := hgb gb
  obtain ⟨rq, hrq⟩ := resetRequest_ok req b
  rw [← hb] at hrq
  rw [hrq]
  dsimp only
  rw [if_neg (by simp [hctx])]
  exact ⟨_, _, _, rfl⟩

theorem retryStep_exhausted {c : RetryConfig} {env : Env} {maxA : ℕ}
    (hwf : ∀ i, (env.doer i).1 = none → (env.doer i).2 ≠ none)
    (req : Request) (attempts gb : ℕ) (hge : maxA ≤ attempts + 1) :
    ∃ p it, retryStep c env maxA req attempts gb = .done (some p) it ∧
      it.waited = none ∧ it.canceled = false := by
  unfold retryStep
  obtain ⟨p, hp⟩ := Option.isSome_iff_exists.mp
    (readResponseStep_isSome c.ReadResponse (env.doer attempts).1 (env.doer attempts).2
      (hwf attempts))
  rw [hp]
  obtain ⟨resp, err⟩ := p
  dsimp only
  rw [if_pos hge]
  exact ⟨(resp, err), _, rfl, rfl, rfl⟩

theorem retryStep_absent_done {c : RetryConfig} {env : Env} {maxA : ℕ}
    {req : Request} {attempts gb : ℕ} {res : Option (Option Response × Option GoError)}
    {it : Iter} (hb : bodyPresent req.body = false)
    (h : retryStep c env maxA req attempts gb = .done res it) :
    it.getBodyCalled = false := by
  unfold retryStep at h
  split at h
  · cases h; rfl
  · split at h
    · cases h; rfl
    · split at h
      · cases h; rfl
      · split at h
        · rename_i heq
          rw [resetRequest_absent req _ hb] at heq
          nomatch heq
        · rename_i rq heq
          rw [resetRequest_absent req _ hb] at heq
          cases heq
          split at h
          · cases h; rfl
          · nomatch h

theorem retryStep_absent_next {c : RetryConfig} {env : Env} {maxA : ℕ}
    {req req' : Request} {attempts gb gb' : ℕ} {it : Iter}
    (hb : bodyPresent req.body = false)
    (h : retryStep c env maxA req attempts gb = .next req' gb' it) :
    req' = req ∧ it.getBodyCalled = false := by
  unfold retryStep at h
  split at h
  · nomatch h
  · split at h
    · nomatch h
    · split at h
      · nomatch h
      · split at h
        · nomatch h
        · rename_i rq heq
          rw [resetRequest_absent req _ hb] at heq
          cases heq
          split at h
          · nomatch h
          · cases h
            exact ⟨rfl, rfl⟩

theorem retryLoop_length_le (c : RetryConfig) (env : Env) (maxA : ℕ) :
    ∀ fuel (req : Request) (attempts gb : ℕ),
      (retryLoop c env maxA fuel req attempts gb).2.length ≤ fuel := by
  intro fuel
  induction fuel with
  | zero => intro req attempts gb; simp [retryLoop]
  | succ f ih =>
    intro req attempts gb
    simp only [retryLoop]
    cases hstep : retryStep c env maxA req attempts gb with
    | done res it => simp
    | next req' gb' it =>
      simpa using Nat.succ_le_succ (ih req' (attempts + 1) gb')

theorem retryLoop_always (c : RetryConfig) (env : Env) (maxA : ℕ)
    (hpred : ∀ a r o e, c.ShouldRetry a r o e = true)
    (hgb : ∀ i, ∃ b, env.getBody i = .ok b)
    (hctx : ∀ n, env.ctxDone n = false)
    (hwf : ∀ i, (env.doer i).1 = none → (env.doer i).2 ≠ none) :
    ∀ fuel (attempts : ℕ) (req : Request) (gb : ℕ),
      attempts + fuel = maxA → 1 ≤ fuel →
      ((retryLoop c env maxA fuel req attempts gb).1.isSome = true ∧
        (retryLoop c env maxA fuel req attempts gb).2.length = fuel ∧
        (retryLoop c env maxA fuel req attempts gb).2.countP
          (fun it => it.waited.isSome) = fuel - 1) := by
  intro fuel
  induction fuel with
  | zero => intro attempts req gb _ hf; omega
  | succ f ih =>
    intro attempts req gb hsum hf
    by_cases hf0 : f = 0
    · subst hf0
      obtain ⟨p, it, hstep, hw, _⟩ :=
        @retryStep_exhausted c env maxA hwf req attempts gb (by omega)
      simp only [retryLoop]
      rw [hstep]
      refine ⟨rfl, rfl, ?_⟩
      simp [List.countP_cons, hw]
    · obtain ⟨req', gb', it, hstep⟩ :=
        @retryStep_always_next c env maxA hpred hgb hctx hwf req attempts gb (by omega)
      obtain ⟨_, _, hw, _⟩ := retryStep_next_shape hstep
      simp only [retryLoop]
      rw [hstep]
      obtain ⟨h1, h2, h3⟩ := ih (attempts + 1) req' gb' (by omega) (by omega)
      refine ⟨h1, by simpa using h2, ?_⟩
      simp only [List.countP_cons, h3, hw]
      simp only [Option.isSome_some, if_pos]
      omega

theorem retryLoop_cancel (c : RetryConfig) (env : Env) (maxA : ℕ) :
    ∀ fuel (req : Request) (attempts gb : ℕ),
      (∃ it ∈ (retryLoop c env maxA fuel req attempts gb).2, it.canceled = true) →
      ((retryLoop c env maxA fuel req attempts gb).1 = some (none, some env.ctxErr) ∧
        ∃ its itl, (retryLoop c env maxA fuel req attempts gb).2 = its ++ [itl] ∧
          itl.canceled = true ∧ itl.waited = none ∧
          ∀ it' ∈ its, it'.canceled = false) := by
  intro fuel
  induction fuel with
  | zero => intro req attempts gb h; simp [retryLoop] at h
  | succ f ih =>
    intro req attempts gb h
    simp only [retryLoop] at h ⊢
    cases hstep : retryStep c env maxA req attempts gb with
    | done res it =>
      rw [hstep] at h
      simp only [List.mem_singleton] at h
      obtain ⟨it', hit', hc⟩ := h
      rw [hit'] at hc
      obtain ⟨hres, hw⟩ := retryStep_done_canceled hstep hc
      subst hres
      exact ⟨rfl, [], it, rfl, hc, hw, by simp⟩
    | next req' gb' it =>
      rw [hstep] at h
      obtain ⟨_, _, _, hcfalse⟩ := retryStep_next_shape hstep
      simp only [List.mem_cons] at h
      obtain ⟨it', hit', hc⟩ := h
      have hrest : ∃ x ∈ (retryLoop c env maxA f req' (attempts + 1) gb').2,
          x.canceled = true := by
        rcases hit' with rfl | hmem
        · rw [hcfalse] at hc; nomatch hc
        · exact ⟨it', hmem, hc⟩
      obtain ⟨h1, its, itl, h2, h3, h4, h5⟩ := ih req' (attempts + 1) gb' hrest
      refine ⟨h1, it :: its, itl, by simp [h2], h3, h4, ?_⟩
      intro x hx
      rcases List.mem_cons.mp hx with rfl | hx'
      · exact hcfalse
      · exact h5 x hx'

theorem retryLoop_dropLast (c : RetryConfig) (env : Env) (maxA : ℕ) :
    ∀ fuel (req : Request) (attempts gb : ℕ),
      ∀ it ∈ ((retryLoop c env maxA fuel req attempts gb).2).dropLast,
        it.drained = it.resp.map (fun r => drain r.body) ∧
          it.waited.isSome = true := by
  intro fuel
  induction fuel with
  | zero => intro req attempts gb it h; simp [retryLoop] at h
  | succ f ih =>
    intro req attempts gb it h
    simp only [retryLoop] at h
    cases hstep : retryStep c env maxA req attempts gb with
    | done res it0 =>
      rw [hstep] at h
      simp at h
    | next req' gb' it0 =>
      rw [hstep] at h
      dsimp only at h
      obtain ⟨_, hdr, hw, _⟩ := retryStep_next_shape hstep
      cases hrest : (retryLoop c env maxA f req' (attempts + 1) gb').2 with
      | nil => rw [hrest] at h; simp at h
      | cons x xs =>
        rw [hrest] at h
        rw [List.dropLast_cons₂] at h
        rcases List.mem_cons.mp h with rfl | h'
        · exact ⟨hdr, by simp [hw]⟩
        · have hy := ih req' (attempts + 1) gb' it
          rw [hrest] at hy
          exact hy h'

theorem retryLoop_absent (c : RetryConfig) (env : Env) (maxA : ℕ) :
    ∀ fuel (req : Request) (attempts gb : ℕ),
      bodyPresent req.body = false →
      ∀ it ∈ (retryLoop c env maxA fuel req attempts gb).2,
        it.getBodyCalled = false := by
  intro fuel
  induction fuel with
  | zero => intro req attempts gb hb it h; simp [retryLoop] at h
  | succ f ih =>
    intro req attempts gb hb it h
    simp only [retryLoop] at h
    cases hstep : retryStep c env maxA req attempts gb with
    | done res it0 =>
      rw [hstep] at h
      simp only [List.mem_singleton] at h
      subst h
      exact retryStep_absent_done hb hstep
    | next req' gb' it0 =>
      rw [hstep] at h
      obtain ⟨hreq, hgbc⟩ := retryStep_absent_next hb hstep
      rcases List.mem_cons.mp h with rfl | h'
      · exact hgbc
      · subst hreq
        exact ih req' (attempts + 1) gb' hb it h'

theorem retryLoop_head (c : RetryConfig) (env : Env) (maxA : ℕ)
    (f : ℕ) (req : Request) (attempts gb : ℕ) :
    ((retryLoop c env maxA (f + 1) req attempts gb).2).head? =
      some (retryStep c env maxA req attempts gb).iter := by
  simp only [retryLoop]
  cases hstep : retryStep c env maxA req attempts gb <;> simp [StepRes.iter]

theorem readResponseStep_some_err_none (r : Response) :
    readResponseStep true (some r) none =
      some (some { r with body := (bufRespBody r.body).1 }, (bufRespBody r.body).2) := rfl

theorem retryStep_iter_fields {c : RetryConfig} {env : Env} {maxA : ℕ}
    {req : Request} {attempts gb : ℕ} {r : Response} {b' : Body} {e' : GoError}
    (hd : env.doer attempts = (some r, none)) (hrr : c.ReadResponse = true)
    (hbody : bufRespBody r.body = (b', some e')) :
    (retryStep c env maxA req attempts gb).iter.resp = some { r with body := b' } ∧
      (retryStep c env maxA req attempts gb).iter.err = some e' := by
  unfold retryStep
  rw [hd]
  dsimp only
  rw [hrr, readResponseStep_some_err_none r, hbody]
  dsimp only
  repeat' split
  all_goals exact ⟨rfl, rfl⟩

theorem retryLoop_head_of_pos (c : RetryConfig) (env : Env) (maxA fuel : ℕ)
    (req : Request) (attempts gb : ℕ) (hfuel : 1 ≤ fuel) :
    ((retryLoop c env maxA fuel req attempts gb).2).head? =
      some (retryStep c env maxA req attempts gb).iter := by
  obtain ⟨f, rfl⟩ : ∃ f, fuel = f + 1 := ⟨fuel - 1, by omega⟩
  exact retryLoop_head c env maxA f req attempts gb

theorem normalizeMaxAttempts_pos (m : ℤ) : 1 ≤ (normalizeMaxAttempts m).toNat := by
  unfold normalizeMaxAttempts
  split <;> omega

/-- Claim C1: with `MaxAttempts = k ≥ 1`, a retry-eligible request (body
absent or `GetBody` set), a doer that always returns a well-formed
outcome, an always-true retry predicate, always-succeeding body
regeneration, and no cancellation, the Retry middleware performs exactly
`k` doer calls and exactly `k-1` backoff waits; and for every execution
of this configuration the number of doer calls is at most `k`. -/
theorem retry_count_bound (c : RetryConfig) (env : Env) (req : Request) (k : ℤ)
    (hck : c.MaxAttempts = k) (hk : 1 ≤ k)
    (helig : bodyPresent req.body = false ∨ req.hasGetBody = true)
    (hpred : ∀ a r o e, c.ShouldRetry a r o e = true)
    (hgb : ∀ i, ∃ b, env.getBody i = .ok b)
    (hctx : ∀ n, env.ctxDone n = false)
    (hwf : ∀ i, (env.doer i).1 = none → (env.doer i).2 ≠ none) :
    ((Retry c env req).result.isSome = true ∧
      (Retry c env req).doerCalls = k.toNat ∧
      (Retry c env req).waits = k.toNat - 1) ∧
    ∀ (env' : Env) (req' : Request), ((Retry c env' req').doerCalls : ℤ) ≤ k := by
  have hnorm : normalizeMaxAttempts c.MaxAttempts = k := by
    unfold normalizeMaxAttempts
    rw [hck, if_neg (by omega)]
  constructor
  · have hcond : (bodyPresent req.body && !req.hasGetBody) = false := by
      rcases helig with h | h <;> simp [h]
    unfold Retry
    rw [hnorm, if_neg (by simp [hcond])]
    obtain ⟨h1, h2, h3⟩ :=
      retryLoop_always c env k.toNat hpred hgb hctx hwf k.toNat 0 req 0 (by omega) (by omega)
    exact ⟨h1, by simp [RunOut.doerCalls, h2], by simp [RunOut.waits, h3]⟩
  · intro env' req'
    unfold Retry
    rw [hnorm]
    by_cases hcond : (bodyPresent req'.body && !req'.hasGetBody) = true
    · rw [if_pos hcond]
      simp [RunOut.doerCalls]
      omega
    · rw [if_neg hcond]
      have hlen := retryLoop_length_le c env' k.toNat k.toNat req' 0 0
      simp only [RunOut.doerCalls, if_neg (Bool.not_eq_true _ ▸ rfl)]
      simp only [Bool.false_eq_true, if_false, Nat.zero_add]
      omega

/-- Witness for claim C1 with `MaxAttempts = 2`, an always-EOF doer, an
always-true predicate, and no cancellation: 2 doer calls, 1 wait. -/
theorem retry_count_bound_witness :
    (1 : ℤ) ≤ 2 ∧
      ((Retry ⟨2, fun _ _ _ _ => true, fun _ => 0, false⟩
          ⟨fun _ => (none, some { tag := 1 }), fun _ => .ok .nilB, fun _ => false,
            { tag := 2 }⟩ ⟨.nilB, false, 0⟩).doerCalls = 2 ∧
        (Retry ⟨2, fun _ _ _ _ => true, fun _ => 0, false⟩
          ⟨fun _ => (none, some { tag := 1 }), fun _ => .ok .nilB, fun _ => false,
            { tag := 2 }⟩ ⟨.nilB, false, 0⟩).waits = 1) :=
  ⟨by decide,
    (retry_count_bound ⟨2, fun _ _ _ _ => true, fun _ => 0, false⟩
        ⟨fun _ => (none, some { tag := 1 }), fun _ => .ok .nilB, fun _ => false,
          { tag := 2 }⟩ ⟨.nilB, false, 0⟩ 2 rfl (by decide) (Or.inl rfl)
        (fun _ _ _ _ => rfl) (fun _ => ⟨.nilB, rfl⟩) (fun _ => rfl)
        (fun _ _ h => Option.noConfusion h)).1.2⟩

/-- Claim C2: a request with a present, non-empty body and no `GetBody`
regenerator bypasses retry entirely: one doer call, its result returned
unmodified, no loop iterations (hence no waits, drains, or predicate
evaluations), whatever the outcome. -/
theorem nonretryable_body_single_send (c : RetryConfig) (env : Env) (req : Request)
    (hp : bodyPresent req.body = true) (hg : req.hasGetBody = false) :
    Retry c env req = { bypassed := true, result := some (env.doer 0), iters := [] } ∧
      (Retry c env req).doerCalls = 1 ∧ (Retry c env req).waits = 0 := by
  have hcond : (bodyPresent req.body && !req.hasGetBody) = true := by simp [hp, hg]
  unfold Retry
  rw [if_pos hcond]
  exact ⟨rfl, rfl, rfl⟩

/-- Witness for claim C2: a streaming body with no regenerator, against
an always-failing doer, is sent exactly once and the doer's outcome is
returned unmodified. -/
theorem nonretryable_body_single_send_witness :
    bodyPresent (Body.stream [1] none none) = true ∧
      Retry ⟨3, fun _ _ _ _ => true, fun _ => 0, false⟩
          ⟨fun _ => (none, some { tag := 1 }), fun _ => .ok .nilB, fun _ => false,
            { tag := 2 }⟩ ⟨.stream [1] none none, false, 0⟩ =
        { bypassed := true, result := some (none, some { tag := 1 }), iters := [] } :=
  ⟨rfl,
    (nonretryable_body_single_send ⟨3, fun _ _ _ _ => true, fun _ => 0, false⟩
        ⟨fun _ => (none, some { tag := 1 }), fun _ => .ok .nilB, fun _ => false,
          { tag := 2 }⟩ ⟨.stream [1] none none, false, 0⟩ rfl rfl).1⟩

/-- Claim C7: if cancellation fires during a backoff wait, the result is
`(nil, cancellation error)`, the pending response is discarded, and the
canceled iteration is the last one — no further doer call, drain, or
predicate evaluation is recorded after it. -/
theorem cancel_short_circuit (c : RetryConfig) (env : Env) (req : Request)
    (h : ∃ it ∈ (Retry c env req).iters, it.canceled = true) :
    (Retry c env req).result = some (none, some env.ctxErr) ∧
      ∃ its itl, (Retry c env req).iters = its ++ [itl] ∧ itl.canceled = true ∧
        itl.waited = none ∧ ∀ it' ∈ its, it'.canceled = false := by
  by_cases hcond : (bodyPresent req.body && !req.hasGetBody) = true
  · unfold Retry at h
    rw [if_pos hcond] at h
    simp at h
  · unfold Retry at h ⊢
    rw [if_neg hcond] at h ⊢
    exact retryLoop_cancel c env _ _ req 0 0 h

/-- Witness for claim C7: cancellation firing during the wait after the
first attempt yields `(nil, ctx error)`. -/
theorem cancel_short_circuit_witness :
    (∃ it ∈ (Retry ⟨3, fun _ _ _ _ => true, fun _ => 0, false⟩
        ⟨fun _ => (none, some { tag := 1 }), fun _ => .ok .nilB, fun n => n == 1,
          { tag := 2 }⟩ ⟨.nilB, false, 0⟩).iters, it.canceled = true) ∧
      (Retry ⟨3, fun _ _ _ _ => true, fun _ => 0, false⟩
        ⟨fun _ => (none, some { tag := 1 }), fun _ => .ok .nilB, fun n => n == 1,
          { tag := 2 }⟩ ⟨.nilB, false, 0⟩).result = some (none, some { tag := 2 }) :=
  ⟨by decide,
    (cancel_short_circuit ⟨3, fun _ _ _ _ => true, fun _ => 0, false⟩
        ⟨fun _ => (none, some { tag := 1 }), fun _ => .ok .nilB, fun n => n == 1,
          { tag := 2 }⟩ ⟨.nilB, false, 0⟩ (by decide)).1⟩

/-- Claim C9: attempts are strictly sequential; every iteration that is
followed by another one recorded its drain (of the response body, when
the response was non-nil) and its completed backoff wait before the next
doer call, and draining reads at most 4096 bytes and closes the body
(a nil body needs no close). -/
theorem drain_before_retry (c : RetryConfig) (env : Env) (req : Request) :
    ∀ it ∈ ((Retry c env req).iters).dropLast,
      (it.drained = it.resp.map (fun r => drain r.body) ∧ it.waited.isSome = true) ∧
      ∀ r, it.resp = some r →
        (drain r.body).1 ≤ 4096 ∧ ((drain r.body).2 = true ∨ r.body = Body.nilB) := by
  intro it hit
  have hdrain : ∀ b : Body, (drain b).1 ≤ 4096 ∧ ((drain b).2 = true ∨ b = Body.nilB) := by
    intro b
    cases b with
    | nilB => exact ⟨by simp [drain], Or.inr rfl⟩
    | noBody => exact ⟨by simp [drain], Or.inl rfl⟩
    | stream d re ce => exact ⟨Nat.min_le_right _ _, Or.inl rfl⟩
    | buffered d ce => exact ⟨Nat.min_le_right _ _, Or.inl rfl⟩
  refine ⟨?_, fun r _ => hdrain r.body⟩
  by_cases hcond : (bodyPresent req.body && !req.hasGetBody) = true
  · unfold Retry at hit
    rw [if_pos hcond] at hit
    simp at hit
  · unfold Retry at hit
    rw [if_neg hcond] at hit
    exact retryLoop_dropLast c env _ _ req 0 0 it hit

/-- Witness for claim C9: a two-attempt run over an always-500 doer; the
first (non-final) iteration drained 2 of the 2 body bytes and closed the
body before the second call. -/
theorem drain_before_retry_witness :
    ({ attempt := 1, resp := some ⟨500, .stream [5, 6] none none, 0⟩, err := none,
        predEval := some true, drained := some (2, true), getBodyCalled := false,
        waited := some 0, canceled := false } : Iter) ∈
      ((Retry ⟨2, fun _ _ _ _ => true, fun _ => 0, false⟩
        ⟨fun _ => (some ⟨500, .stream [5, 6] none none, 0⟩, none), fun _ => .ok .nilB,
          fun _ => false, { tag := 2 }⟩ ⟨.nilB, false, 0⟩).iters).dropLast ∧
      (some (2, true) : Option (ℕ × Bool)) =
        (some ⟨500, Body.stream [5, 6] none none, 0⟩ : Option Response).map
          (fun r => drain r.body) :=
  ⟨by decide,
    ((drain_before_retry ⟨2, fun _ _ _ _ => true, fun _ => 0, false⟩
        ⟨fun _ => (some ⟨500, .stream [5, 6] none none, 0⟩, none), fun _ => .ok .nilB,
          fun _ => false, { tag := 2 }⟩ ⟨.nilB, false, 0⟩
        { attempt := 1, resp := some ⟨500, .stream [5, 6] none none, 0⟩, err := none,
          predEval := some true, drained := some (2, true), getBodyCalled := false,
          waited := some 0, canceled := false } (by decide)).1.1).symm ▸ rfl⟩

/-- Claim C10: a request with an absent body (nil or `http.NoBody`) is
retry-eligible even without a `GetBody` regenerator: the single-send
bypass is not taken, `resetRequest` returns the request unchanged for
any `GetBody` oracle, and no loop iteration ever invokes `GetBody`. -/
theorem absent_body_retryable (c : RetryConfig) (env : Env) (req : Request)
    (hb : req.body = Body.nilB ∨ req.body = Body.noBody) :
    (Retry c env req).bypassed = false ∧
      (∀ gb, resetRequest req gb = .ok (req, false)) ∧
      ∀ it ∈ (Retry c env req).iters, it.getBodyCalled = false := by
  have hbp : bodyPresent req.body = false := by
    rcases hb with h | h <;> simp [h, bodyPresent]
  have hcond : ¬((bodyPresent req.body && !req.hasGetBody) = true) := by simp [hbp]
  unfold Retry
  rw [if_neg hcond]
  exact ⟨rfl, fun gb => resetRequest_absent req gb hbp,
    retryLoop_absent c env _ _ req 0 0 hbp⟩

/-- Witness for claim C10: an `http.NoBody` request with no regenerator
still enters the retry loop. -/
theorem absent_body_retryable_witness :
    ((⟨.noBody, false, 0⟩ : Request).body = Body.nilB ∨
        (⟨.noBody, false, 0⟩ : Request).body = Body.noBody) ∧
      (Retry ⟨3, fun _ _ _ _ => true, fun _ => 0, false⟩
        ⟨fun _ => (none, some { tag := 1 }), fun _ => .ok .nilB, fun _ => false,
          { tag := 2 }⟩ ⟨.noBody, false, 0⟩).bypassed = false :=
  ⟨Or.inr rfl,
    (absent_body_retryable ⟨3, fun _ _ _ _ => true, fun _ => 0, false⟩
        ⟨fun _ => (none, some { tag := 1 }), fun _ => .ok .nilB, fun _ => false,
          { tag := 2 }⟩ ⟨.noBody, false, 0⟩ (Or.inr rfl)).1⟩

/-- Counterexample for claim C6: when reading the response body fails
partway through (2 bytes were read, then a read error), `bufRespBody`
returns a nil body and the read error — the partially read bytes are
discarded, not preserved behind an error-reporting closer (which the
code constructs only when reading succeeds but closing fails). -/
theorem read_response_counterexample :
    bufRespBody (Body.stream [1, 2] (some { tag := 7 }) none) =
        (Body.nilB, some { tag := 7 }) ∧
      (bufRespBody (Body.stream [1, 2] (some { tag := 7 }) none)).1.storedBytes = [] ∧
      (bufRespBody (Body.stream [1, 2] (some { tag := 7 }) none)).1.storedBytes ≠ [1, 2] := by
  exact ⟨rfl, rfl, by decide⟩

/-- Claim C6 (amended): with `ReadResponse` configured, a doer call that
succeeds but whose body fails partway through reading makes the read
failure the attempt's error (visible to the retry predicate) with the
response body replaced by nil, the partial bytes being discarded; the
error-reporting closer preserving the (fully read) bytes arises only
when reading succeeds and closing the original body fails. -/
theorem read_response_amended (c : RetryConfig) (env : Env) (req : Request)
    (r : Response) (d : List ℕ) (e : GoError) (ce : Option GoError)
    (hrr : c.ReadResponse = true)
    (hcond : (bodyPresent req.body && !req.hasGetBody) = false)
    (hd : env.doer 0 = (some r, none))
    (hb : r.body = Body.stream d (some e) ce) :
    (∃ it its, (Retry c env req).iters = it :: its ∧
        it.err = some e ∧ it.resp = some { r with body := Body.nilB }) ∧
      ∀ d' ce', bufRespBody (Body.stream d' none (some ce')) =
        (Body.buffered d' (some ce'), none) := by
  refine ⟨?_, fun d' ce' => rfl⟩
  have hbody : bufRespBody r.body = (Body.nilB, some e) := by rw [hb]; rfl
  have hfields := @retryStep_iter_fields c env
    (normalizeMaxAttempts c.MaxAttempts).toNat req 0 0 r Body.nilB e hd hrr hbody
  have hhead := retryLoop_head_of_pos c env (normalizeMaxAttempts c.MaxAttempts).toNat
    (normalizeMaxAttempts c.MaxAttempts).toNat req 0 0
    (normalizeMaxAttempts_pos c.MaxAttempts)
  unfold Retry
  rw [if_neg (by simp [hcond])]
  cases hl : (retryLoop c env (normalizeMaxAttempts c.MaxAttempts).toNat
      (normalizeMaxAttempts c.MaxAttempts).toNat req 0 0).2 with
  | nil => rw [hl] at hhead; nomatch hhead
  | cons x xs =>
    rw [hl] at hhead
    have hx : x = (retryStep c env (normalizeMaxAttempts c.MaxAttempts).toNat req 0 0).iter :=
      Option.some.inj hhead
    exact ⟨x, xs, rfl, by rw [hx]; exact hfields.2, by rw [hx]; exact hfields.1⟩

/-- Witness for the amended claim C6: a doer whose response body yields
one byte and then fails; the first iteration's error is the read error
and its response carries a nil body. -/
theorem read_response_amended_witness :
    ((⟨2, fun _ _ _ _ => false, fun _ => 0, true⟩ : RetryConfig)).ReadResponse = true ∧
      (∃ it its, (Retry ⟨2, fun _ _ _ _ => false, fun _ => 0, true⟩
          ⟨fun _ => (some ⟨500, .stream [9] (some { tag := 5 }) none, 0⟩, none),
            fun _ => .ok .nilB, fun _ => false, { tag := 2 }⟩
          ⟨.nilB, false, 0⟩).iters = it :: its ∧
        it.err = some { tag := 5 } ∧ it.resp = some ⟨500, Body.nilB, 0⟩) :=
  ⟨rfl,
    (read_response_amended ⟨2, fun _ _ _ _ => false, fun _ => 0, true⟩
        ⟨fun _ => (some ⟨500, .stream [9] (some { tag := 5 }) none, 0⟩, none),
          fun _ => .ok .nilB, fun _ => false, { tag := 2 }⟩
        ⟨.nilB, false, 0⟩ ⟨500, .stream [9] (some { tag := 5 }) none, 0⟩ [9]
        { tag := 5 } none rfl rfl rfl rfl).1⟩

end Requester
